import Mathlib

/-!
# Verification of the TIFF compressor backend

Shallow embedding of the iterative size-targeting compression loop of
`src/utils.py` (`compress_tiff_file`) and of the `/compress` HTTP handler of
`src/main.py` (`compress_tiff`), with proofs of the specified properties.

Modelling conventions:
* Python floats are modelled as exact rationals (`ℚ`); the decay constant
  `0.9` is `9/10` and the scale cutoff `0.1` is `1/10`.
* Python `int(x)` truncates toward zero; every value it is applied to here
  (`width * scale`, `width * min_size_percentage` with nonnegative factors)
  is nonnegative, where truncation coincides with the floor (`pyInt`).
* The encoded size of the written artifact is determined by the codec from
  the candidate raster; for a fixed source image and fixed enhancement
  parameters it is a function of the candidate dimensions alone, which we
  abstract as an oracle `sizeKB : ℕ → ℕ → ℚ`.
* The `while True` loop is embedded as a fuel-indexed recursion
  (`compressLoop`); termination claims are statements that a concrete fuel
  suffices.
-/

namespace TiffCompressor

/-- Python `int()` applied to a nonnegative rational: floor, clipped to `ℕ`. -/
def pyInt (q : ℚ) : ℕ := ⌊q⌋.toNat

/-- A decoded raster; only its dimensions matter for the control loop. -/
structure Image where
  width : ℕ
  height : ℕ
deriving Repr, DecidableEq

/-- The parameter record of `compress_tiff_file` in `src/utils.py`.
`sharpness_factor`, `contrast_factor`, `blur_radius` and `dpi` only affect
pixel content and metadata, which the size oracle abstracts. -/
structure Params where
  target_size_kb : ℚ
  min_size_percentage : ℚ
  scale_factor : ℚ
  sharpness_factor : ℚ
  contrast_factor : ℚ
  blur_radius : ℚ
  dpi : ℤ
deriving Repr, DecidableEq

/-- One iteration's candidate dimensions, from `src/utils.py` lines 76-81:
the source is re-opened every iteration, so the basis of the scale term is
the original image;
`new_width = max(int(img.width * scale_factor), int(original_width * min_size_percentage))`
and symmetrically for height. -/
def newDims (img : Image) (scale minPct : ℚ) : ℕ × ℕ :=
  (max (pyInt (img.width * scale)) (pyInt (img.width * minPct)),
   max (pyInt (img.height * scale)) (pyInt (img.height * minPct)))

/-- Result of the compression loop: the candidate dimensions of every
iteration in order (`trace`), the measured size of the last written artifact
(`sizeKB`), and the final value of the `scale_factor` loop variable. -/
structure LoopResult where
  trace : List (ℕ × ℕ)
  sizeKB : ℚ
  finalScale : ℚ
deriving Repr, DecidableEq

/-- The `while True` loop of `compress_tiff_file` (`src/utils.py` lines
75-122): compute candidate dimensions, resize/enhance/save (abstracted into
the size oracle), measure, stop when the measured size is at or below the
target or the scale factor is at or below `0.1`, otherwise decay the scale
factor by `0.9` and repeat. `fuel` bounds the recursion; `none` means the
fuel ran out before the loop exited. -/
def compressLoop (img : Image) (minPct target : ℚ) (sizeKB : ℕ → ℕ → ℚ) :
    ℚ → ℕ → Option LoopResult
  | _, 0 => none
  | scale, fuel + 1 =>
    if sizeKB (newDims img scale minPct).1 (newDims img scale minPct).2 ≤ target ∨
        scale ≤ 1/10 then
      some ⟨[newDims img scale minPct],
        sizeKB (newDims img scale minPct).1 (newDims img scale minPct).2, scale⟩
    else
      match compressLoop img minPct target sizeKB (scale * (9/10)) fuel with
      | some r => some ⟨newDims img scale minPct :: r.trace, r.sizeKB, r.finalScale⟩
      | none => none

/-- `compress_tiff_file` of `src/utils.py`: the only parameter validation in
the function body (lines 58-60) rejects a non-positive `target_size_kb`;
no other numeric parameter is checked there. The file-existence check and
decode are modelled as already having succeeded (`img` is the decoded
source). -/
def compress_tiff_file (img : Image) (p : Params) (sizeKB : ℕ → ℕ → ℚ)
    (fuel : ℕ) : Except String LoopResult :=
  if p.target_size_kb ≤ 0 then
    .error "target_size_kb must be a positive number"
  else
    match compressLoop img p.min_size_percentage p.target_size_kb sizeKB
        p.scale_factor fuel with
    | some r => .ok r
    | none => .error "out of fuel"

/-- The scale factor in force on (0-indexed) iteration `i`: the initial
value decayed `i` times by `0.9`. -/
def scaleAt (s0 : ℚ) (i : ℕ) : ℚ := s0 * (9/10) ^ i

/-- The range constraints the FastAPI `Form` declarations in `src/main.py`
impose on the numeric parameters before the handler body runs
(`gt`/`ge`/`le` arguments of each `Form(...)`). -/
def formParamsOk (p : Params) : Prop :=
  0 < p.target_size_kb ∧
  (1/10 < p.min_size_percentage ∧ p.min_size_percentage ≤ 1) ∧
  (1/10 < p.scale_factor ∧ p.scale_factor ≤ 1) ∧
  (1/10 < p.sharpness_factor ∧ p.sharpness_factor ≤ 3) ∧
  (1/10 < p.contrast_factor ∧ p.contrast_factor ≤ 3) ∧
  (0 ≤ p.blur_radius ∧ p.blur_radius ≤ 2) ∧
  0 < p.dpi

/-- Python `str.lower()` on one character, restricted to ASCII (filenames in
the claims are ASCII; on ASCII, `str.lower()` maps `A`-`Z` down by 32). -/
def pyLowerChar (c : Char) : Char :=
  if 'A' ≤ c ∧ c ≤ 'Z' then Char.ofNat (c.toNat + 32) else c

/-- File-extension check of the `/compress` handler (`src/main.py`):
`file.filename.lower().endswith(('.tiff', '.tif'))`, over the character
list of the filename. -/
def hasTiffExt (filename : String) : Bool :=
  let lower := filename.data.map pyLowerChar
  ".tiff".data.isSuffixOf lower || ".tif".data.isSuffixOf lower

/-- Outcome of one request to the `/compress` handler. -/
inductive HandlerResult where
  | fileResponse (path : String)
  | httpError (status : ℕ) (detail : String)
deriving Repr, DecidableEq

/-- The handler's observable effect: its response, and the files created
during the request that still exist once the handler (including its
`finally` block) has finished. -/
structure RequestEffect where
  result : HandlerResult
  remainingFiles : List String
deriving Repr, DecidableEq

/-- The `finally` block of the handler: best-effort `os.unlink` of the two
`NamedTemporaryFile` paths, each wrapped in `try/except: pass`. `uIn`/`uOut`
say whether the respective `os.unlink` call succeeds. -/
def cleanup (created : List String) (tempIn tempOut : String)
    (uIn uOut : Bool) : List String :=
  created.filter fun f => !(f == tempIn && uIn) && !(f == tempOut && uOut)

/-- The `/compress` handler of `src/main.py`. The extension check happens
before the `try`, so a bad extension raises `HTTPException(400, ...)` with
no temporary file created. Otherwise the handler creates `tempIn` and
`tempOut` (the `NamedTemporaryFile` paths) and runs `compress_tiff_file`,
whose outcome is `compressResult` (`.ok` carries the path it wrote, `.error`
the exception message). On success the handler returns a `FileResponse` for
the written artifact; on failure the inner `except` raises
`HTTPException(500, "Error during compression: ...")`, which the outer
`except` catches and re-wraps as `"Error processing file: ..."`. The
`finally` block unlinks only `tempIn` and `tempOut`. -/
def compress_tiff (filename tempIn tempOut : String)
    (compressResult : Except String String) (uIn uOut : Bool) :
    RequestEffect :=
  if hasTiffExt filename then
    match compressResult with
    | .ok out =>
      ⟨.fileResponse out, cleanup [tempIn, tempOut, out] tempIn tempOut uIn uOut⟩
    | .error e =>
      ⟨.httpError 500 ("Error processing file: 500: Error during compression: " ++ e),
       cleanup [tempIn, tempOut] tempIn tempOut uIn uOut⟩
  else
    ⟨.httpError 400 "Only TIFF files are supported", []⟩

/-! ## Helper lemmas about the loop -/

lemma pyInt_mono {q q' : ℚ} (h : q ≤ q') : pyInt q ≤ pyInt q' :=
  Int.toNat_le_toNat (Int.floor_le_floor h)

lemma newDims_le_newDims (img : Image) {s s' minPct : ℚ} (h : s' ≤ s) :
    (newDims img s' minPct).1 ≤ (newDims img s minPct).1 ∧
    (newDims img s' minPct).2 ≤ (newDims img s minPct).2 := by
  constructor <;>
    exact max_le_max
      (pyInt_mono (mul_le_mul_of_nonneg_left h (Nat.cast_nonneg _))) le_rfl

lemma newDims_fst_floor_le (img : Image) (s minPct : ℚ) :
    pyInt (img.width * minPct) ≤ (newDims img s minPct).1 :=
  le_max_right _ _

lemma newDims_snd_floor_le (img : Image) (s minPct : ℚ) :
    pyInt (img.height * minPct) ≤ (newDims img s minPct).2 :=
  le_max_right _ _

lemma compressLoop_trace_getD (img : Image) (minPct target : ℚ)
    (sizeKB : ℕ → ℕ → ℚ) :
    ∀ (fuel : ℕ) (s : ℚ) (r : LoopResult),
      compressLoop img minPct target sizeKB s fuel = some r →
      ∀ i, i < r.trace.length →
        r.trace.getD i (0, 0) = newDims img (s * (9/10) ^ i) minPct := by
  intro fuel
  induction fuel with
  | zero => intro s r h; simp [compressLoop] at h
  | succ n ih =>
    intro s r h i hi
    simp only [compressLoop] at h
    split at h
    · cases h
      have hi0 : i = 0 := by
        simp only [List.length_singleton] at hi
        omega
      subst hi0
      simp [pow_zero, mul_one]
    · split at h
      · rename_i r' hr'
        cases h
        cases i with
        | zero => simp [pow_zero, mul_one]
        | succ i =>
          simp only [List.getD_cons_succ]
          have hlen : i < r'.trace.length := by
            simpa using Nat.lt_of_succ_lt_succ hi
          have := ih (s * (9/10)) r' hr' i hlen
          rw [this]
          have harith : s * (9/10) * (9/10 : ℚ) ^ i = s * (9/10) ^ (i + 1) := by
            rw [pow_succ]; ring
          rw [harith]
      · cases h

lemma compressLoop_length_le (img : Image) (minPct target : ℚ)
    (sizeKB : ℕ → ℕ → ℚ) :
    ∀ (fuel : ℕ) (s : ℚ) (r : LoopResult),
      compressLoop img minPct target sizeKB s fuel = some r →
      r.trace.length ≤ fuel := by
  intro fuel
  induction fuel with
  | zero => intro s r h; simp [compressLoop] at h
  | succ n ih =>
    intro s r h
    simp only [compressLoop] at h
    split at h
    · cases h; simp
    · split at h
      · rename_i r' hr'
        cases h
        simpa using Nat.succ_le_succ (ih (s * (9/10)) r' hr')
      · cases h

lemma compressLoop_exit_cond (img : Image) (minPct target : ℚ)
    (sizeKB : ℕ → ℕ → ℚ) :
    ∀ (fuel : ℕ) (s : ℚ) (r : LoopResult),
      compressLoop img minPct target sizeKB s fuel = some r →
      r.sizeKB ≤ target ∨ r.finalScale ≤ 1/10 := by
  intro fuel
  induction fuel with
  | zero => intro s r h; simp [compressLoop] at h
  | succ n ih =>
    intro s r h
    simp only [compressLoop] at h
    split at h
    · rename_i hc
      cases h
      exact hc
    · split at h
      · rename_i r' hr'
        cases h
        exact ih (s * (9/10)) r' hr'
      · cases h

lemma compressLoop_last_size (img : Image) (minPct target : ℚ)
    (sizeKB : ℕ → ℕ → ℚ) :
    ∀ (fuel : ℕ) (s : ℚ) (r : LoopResult),
      compressLoop img minPct target sizeKB s fuel = some r →
      ∃ d, r.trace.getLast? = some d ∧ r.sizeKB = sizeKB d.1 d.2 := by
  intro fuel
  induction fuel with
  | zero => intro s r h; simp [compressLoop] at h
  | succ n ih =>
    intro s r h
    simp only [compressLoop] at h
    split at h
    · cases h
      exact ⟨_, rfl, rfl⟩
    · split at h
      · rename_i r' hr'
        cases h
        obtain ⟨d, hd, hsz⟩ := ih (s * (9/10)) r' hr'
        refine ⟨d, ?_, hsz⟩
        cases hl : r'.trace with
        | nil => rw [hl] at hd; simp at hd
        | cons a l =>
          rw [hl] at hd
          simpa [List.getLast?_cons_cons] using hd
      · cases h

lemma compressLoop_total (img : Image) (minPct target : ℚ)
    (sizeKB : ℕ → ℕ → ℚ) :
    ∀ (n : ℕ) (s : ℚ), s ≤ 1/10 * (10/9) ^ n →
      ∃ r, compressLoop img minPct target sizeKB s (n + 1) = some r := by
  intro n
  induction n with
  | zero =>
    intro s hs
    rw [pow_zero, mul_one] at hs
    rw [compressLoop]
    rw [if_pos (Or.inr hs)]
    exact ⟨_, rfl⟩
  | succ n ih =>
    intro s hs
    rw [compressLoop]
    by_cases hc :
        sizeKB (newDims img s minPct).1 (newDims img s minPct).2 ≤ target ∨
          s ≤ 1/10
    · rw [if_pos hc]
      exact ⟨_, rfl⟩
    · rw [if_neg hc]
      have hnext : s * (9/10) ≤ 1/10 * (10/9) ^ n := by
        calc s * (9/10) ≤ 1/10 * (10/9) ^ (n + 1) * (9/10) :=
              mul_le_mul_of_nonneg_right hs (by norm_num)
          _ = 1/10 * (10/9) ^ n := by rw [pow_succ]; ring
      obtain ⟨r, hr⟩ := ih (s * (9/10)) hnext
      rw [hr]
      exact ⟨_, rfl⟩

/-- A concrete two-iteration run of the loop, shared by the witnesses:
source 100×100, 30% floor, target 50 KB, and a size oracle reporting 100 KB
for widths of 85 and above, 1 KB below. Iteration 1 produces 90×90 (too
big), iteration 2 produces 81×81 and exits. -/
lemma exampleRun :
    compressLoop ⟨100, 100⟩ (3/10) 50 (fun w _ => if 85 ≤ w then 100 else 1)
        (9/10) 23 =
      some ⟨[(90, 90), (81, 81)], 1, 81/100⟩ := by
  norm_num [compressLoop, newDims, pyInt] <;> simp

/-! ## The claims -/

/-- C1. For every valid parameter set and decodable source image,
`compress_tiff_file` terminates; the loop exits with the measured size at or
below `target_size_kb` or the scale factor decayed to at most `0.1`, and the
iteration count is bounded by `⌈log(0.1)/log(0.9)⌉ + 1 = 23` (22 decay
steps from the initial scale factor, which is at most 1). -/
theorem compress_terminates (img : Image) (p : Params) (sizeKB : ℕ → ℕ → ℚ)
    (hv : formParamsOk p) :
    ∃ r, compress_tiff_file img p sizeKB 23 = .ok r ∧ r.trace.length ≤ 23 ∧
      (r.sizeKB ≤ p.target_size_kb ∨ r.finalScale ≤ 1/10) := by
  obtain ⟨ht, hmin, hscale, hrest⟩ := hv
  have hb : p.scale_factor ≤ 1/10 * (10/9 : ℚ) ^ 22 :=
    le_trans hscale.2 (by norm_num)
  obtain ⟨r, hr⟩ :=
    compressLoop_total img p.min_size_percentage p.target_size_kb sizeKB 22
      p.scale_factor hb
  have hr' : compressLoop img p.min_size_percentage p.target_size_kb sizeKB
      p.scale_factor 23 = some r := hr
  refine ⟨r, ?_, compressLoop_length_le _ _ _ _ _ _ _ hr',
    compressLoop_exit_cond _ _ _ _ _ _ _ hr'⟩
  unfold compress_tiff_file
  rw [if_neg (not_le.mpr ht), hr']

/-- Witness for C1 at a concrete valid parameter set. -/
theorem compress_terminates_witness :
    formParamsOk ⟨50, 3/10, 9/10, 3/2, 3/2, 1/10, 300⟩ ∧
    ∃ r, compress_tiff_file ⟨100, 100⟩ ⟨50, 3/10, 9/10, 3/2, 3/2, 1/10, 300⟩
        (fun w _ => if 85 ≤ w then 100 else 1) 23 = .ok r ∧
      r.trace.length ≤ 23 ∧ (r.sizeKB ≤ 50 ∨ r.finalScale ≤ 1/10) :=
  ⟨by norm_num [formParamsOk],
   compress_terminates _ _ _ (by norm_num [formParamsOk])⟩

/-- C2. On every iteration `i` of the loop, the candidate dimensions are
`new_width = max(floor(base_width * scale_i), floor(original_width *
min_size_percentage))` and symmetrically for height, where `scale_i` is the
initial scale factor decayed `i` times and the base is the re-opened
original image. -/
theorem trace_dims_formula (img : Image) (minPct target : ℚ)
    (sizeKB : ℕ → ℕ → ℚ) (s0 : ℚ) (fuel : ℕ) (r : LoopResult)
    (h : compressLoop img minPct target sizeKB s0 fuel = some r)
    (i : ℕ) (hi : i < r.trace.length) :
    r.trace.getD i (0, 0) =
      (max (pyInt (img.width * scaleAt s0 i)) (pyInt (img.width * minPct)),
       max (pyInt (img.height * scaleAt s0 i)) (pyInt (img.height * minPct))) := by
  simpa [newDims, scaleAt] using
    compressLoop_trace_getD img minPct target sizeKB fuel s0 r h i hi

/-- Witness for C2 at the concrete two-iteration run, iteration 1. -/
theorem trace_dims_formula_witness :
    (compressLoop ⟨100, 100⟩ (3/10) 50 (fun w _ => if 85 ≤ w then 100 else 1)
        (9/10) 23 = some ⟨[(90, 90), (81, 81)], 1, 81/100⟩) ∧
    (⟨[(90, 90), (81, 81)], 1, 81/100⟩ : LoopResult).trace.getD 1 (0, 0) =
      (max (pyInt ((⟨100, 100⟩ : Image).width * scaleAt (9/10) 1))
        (pyInt ((⟨100, 100⟩ : Image).width * (3/10))),
       max (pyInt ((⟨100, 100⟩ : Image).height * scaleAt (9/10) 1))
        (pyInt ((⟨100, 100⟩ : Image).height * (3/10)))) :=
  ⟨exampleRun, trace_dims_formula _ _ _ _ _ _ _ exampleRun 1 (by simp)⟩

/-- C5. On every iteration, the candidate dimensions respect the floor:
`new_width ≥ floor(original_width * min_size_percentage)` and symmetrically
for height. -/
theorem trace_floor_invariant (img : Image) (minPct target : ℚ)
    (sizeKB : ℕ → ℕ → ℚ) (s0 : ℚ) (fuel : ℕ) (r : LoopResult)
    (h : compressLoop img minPct target sizeKB s0 fuel = some r)
    (i : ℕ) (hi : i < r.trace.length) :
    pyInt (img.width * minPct) ≤ (r.trace.getD i (0, 0)).1 ∧
    pyInt (img.height * minPct) ≤ (r.trace.getD i (0, 0)).2 := by
  rw [compressLoop_trace_getD img minPct target sizeKB fuel s0 r h i hi]
  exact ⟨newDims_fst_floor_le img _ minPct, newDims_snd_floor_le img _ minPct⟩

/-- Witness for C5 at the concrete two-iteration run, iteration 1. -/
theorem trace_floor_invariant_witness :
    (compressLoop ⟨100, 100⟩ (3/10) 50 (fun w _ => if 85 ≤ w then 100 else 1)
        (9/10) 23 = some ⟨[(90, 90), (81, 81)], 1, 81/100⟩) ∧
    (pyInt ((⟨100, 100⟩ : Image).width * (3/10)) ≤
      ((⟨[(90, 90), (81, 81)], 1, 81/100⟩ : LoopResult).trace.getD 1 (0, 0)).1 ∧
     pyInt ((⟨100, 100⟩ : Image).height * (3/10)) ≤
      ((⟨[(90, 90), (81, 81)], 1, 81/100⟩ : LoopResult).trace.getD 1 (0, 0)).2) :=
  ⟨exampleRun, trace_floor_invariant _ _ _ _ _ _ _ exampleRun 1 (by simp)⟩

/-- C6. Across iterations, the successive candidate dimensions are
non-increasing in both width and height. -/
theorem trace_dims_antitone (img : Image) (minPct target : ℚ)
    (sizeKB : ℕ → ℕ → ℚ) (s0 : ℚ) (fuel : ℕ) (r : LoopResult)
    (hs : 0 ≤ s0)
    (h : compressLoop img minPct target sizeKB s0 fuel = some r)
    (i j : ℕ) (hij : i ≤ j) (hj : j < r.trace.length) :
    (r.trace.getD j (0, 0)).1 ≤ (r.trace.getD i (0, 0)).1 ∧
    (r.trace.getD j (0, 0)).2 ≤ (r.trace.getD i (0, 0)).2 := by
  have hi : i < r.trace.length := lt_of_le_of_lt hij hj
  rw [compressLoop_trace_getD img minPct target sizeKB fuel s0 r h i hi,
    compressLoop_trace_getD img minPct target sizeKB fuel s0 r h j hj]
  have hpow : (9/10 : ℚ) ^ j ≤ (9/10 : ℚ) ^ i :=
    pow_le_pow_of_le_one (by norm_num) (by norm_num) hij
  exact newDims_le_newDims img (mul_le_mul_of_nonneg_left hpow hs)

/-- Witness for C6 at the concrete two-iteration run, iterations 0 and 1. -/
theorem trace_dims_antitone_witness :
    (0 : ℚ) ≤ 9/10 ∧
    (compressLoop ⟨100, 100⟩ (3/10) 50 (fun w _ => if 85 ≤ w then 100 else 1)
        (9/10) 23 = some ⟨[(90, 90), (81, 81)], 1, 81/100⟩) ∧
    (((⟨[(90, 90), (81, 81)], 1, 81/100⟩ : LoopResult).trace.getD 1 (0, 0)).1 ≤
      ((⟨[(90, 90), (81, 81)], 1, 81/100⟩ : LoopResult).trace.getD 0 (0, 0)).1 ∧
     ((⟨[(90, 90), (81, 81)], 1, 81/100⟩ : LoopResult).trace.getD 1 (0, 0)).2 ≤
      ((⟨[(90, 90), (81, 81)], 1, 81/100⟩ : LoopResult).trace.getD 0 (0, 0)).2) :=
  ⟨by norm_num, exampleRun,
   trace_dims_antitone _ _ _ _ _ _ _ (by norm_num) exampleRun 0 1
     (by norm_num) (by simp)⟩

/-- C7. If `target_size_kb` is at least the encoded size of the first pass,
the loop exits after exactly one iteration with the scale factor unchanged
from its initial value. -/
theorem early_exit_one_iteration (img : Image) (minPct target : ℚ)
    (sizeKB : ℕ → ℕ → ℚ) (s0 : ℚ) (fuel : ℕ)
    (h : sizeKB (newDims img s0 minPct).1 (newDims img s0 minPct).2 ≤ target) :
    ∃ r, compressLoop img minPct target sizeKB s0 (fuel + 1) = some r ∧
      r.trace.length = 1 ∧ r.finalScale = s0 := by
  refine ⟨⟨[newDims img s0 minPct],
    sizeKB (newDims img s0 minPct).1 (newDims img s0 minPct).2, s0⟩, ?_, rfl, rfl⟩
  rw [compressLoop, if_pos (Or.inl h)]

/-- Witness for C7: a constant 1 KB size oracle against a 50 KB target. -/
theorem early_exit_one_iteration_witness :
    (1 : ℚ) ≤ 50 ∧
    ∃ r, compressLoop ⟨100, 100⟩ (3/10) 50 (fun _ _ => 1) (9/10) 23 = some r ∧
      r.trace.length = 1 ∧ r.finalScale = 9/10 :=
  ⟨by norm_num,
   early_exit_one_iteration ⟨100, 100⟩ (3/10) 50 (fun _ _ => 1) (9/10) 22
     (by norm_num)⟩

/-- C8. When the target is unreachable (every encode comes out above
`target_size_kb`), the loop still returns successfully: it stops once the
scale factor has decayed to at most `0.1`, and the returned artifact is the
last written one, whose measured size exceeds the target. -/
theorem floor_exhaustion_best_effort (img : Image) (p : Params)
    (sizeKB : ℕ → ℕ → ℚ) (hv : formParamsOk p)
    (hun : ∀ w h, p.target_size_kb < sizeKB w h) :
    ∃ r, compress_tiff_file img p sizeKB 23 = .ok r ∧
      r.finalScale ≤ 1/10 ∧ p.target_size_kb < r.sizeKB ∧
      ∃ d, r.trace.getLast? = some d ∧ r.sizeKB = sizeKB d.1 d.2 := by
  obtain ⟨ht, hmin, hscale, hrest⟩ := hv
  have hb : p.scale_factor ≤ 1/10 * (10/9 : ℚ) ^ 22 :=
    le_trans hscale.2 (by norm_num)
  obtain ⟨r, hr⟩ :=
    compressLoop_total img p.min_size_percentage p.target_size_kb sizeKB 22
      p.scale_factor hb
  have hr' : compressLoop img p.min_size_percentage p.target_size_kb sizeKB
      p.scale_factor 23 = some r := hr
  obtain ⟨d, hd, hsz⟩ := compressLoop_last_size _ _ _ _ _ _ _ hr'
  have hgt : p.target_size_kb < r.sizeKB := by rw [hsz]; exact hun d.1 d.2
  refine ⟨r, ?_, ?_, hgt, d, hd, hsz⟩
  · unfold compress_tiff_file
    rw [if_neg (not_le.mpr ht), hr']
  · rcases compressLoop_exit_cond _ _ _ _ _ _ _ hr' with hle | hsc
    · exact absurd hle (not_le.mpr hgt)
    · exact hsc

/-- Witness for C8: a 1 KB target against a constant 2 KB size oracle. -/
theorem floor_exhaustion_best_effort_witness :
    formParamsOk ⟨1, 3/10, 9/10, 3/2, 3/2, 1/10, 300⟩ ∧
    (∀ w h : ℕ, (1 : ℚ) < 2) ∧
    ∃ r, compress_tiff_file ⟨100, 100⟩ ⟨1, 3/10, 9/10, 3/2, 3/2, 1/10, 300⟩
        (fun _ _ => 2) 23 = .ok r ∧
      r.finalScale ≤ 1/10 ∧ (1 : ℚ) < r.sizeKB ∧
      ∃ d, r.trace.getLast? = some d ∧ r.sizeKB = 2 :=
  ⟨by norm_num [formParamsOk], fun _ _ => by norm_num,
   floor_exhaustion_best_effort _ _ _ (by norm_num [formParamsOk])
     (fun _ _ => by norm_num)⟩

/-- C3, counterexample. Called directly with
`min_size_percentage = 0.05`, `compress_tiff_file` does not raise an
invalid-parameter error: it runs the loop and returns successfully (floor
`int(100 * 0.05) = 5`, first pass 90×90, 1 KB ≤ 50 KB). -/
theorem min_size_percentage_not_checked :
    compress_tiff_file ⟨100, 100⟩ ⟨50, 1/20, 9/10, 3/2, 3/2, 1/10, 300⟩
        (fun _ _ => 1) 23 = .ok ⟨[(90, 90)], 1, 9/10⟩ := by
  norm_num [compress_tiff_file, compressLoop, newDims, pyInt] <;> simp

/-- C3, amended. The only validation in `compress_tiff_file` is
`target_size_kb > 0`; `min_size_percentage = 0.05` is rejected only by the
HTTP-boundary `Form` constraints, which `formParamsOk` embeds. -/
theorem validation_only_target_size :
    ¬ formParamsOk ⟨50, 1/20, 9/10, 3/2, 3/2, 1/10, 300⟩ ∧
    (∀ (img : Image) (sizeKB : ℕ → ℕ → ℚ) (fuel : ℕ),
      compress_tiff_file img ⟨50, 1/20, 9/10, 3/2, 3/2, 1/10, 300⟩ sizeKB fuel ≠
        .error "target_size_kb must be a positive number") ∧
    compress_tiff_file ⟨100, 100⟩ ⟨0, 3/10, 9/10, 3/2, 3/2, 1/10, 300⟩
        (fun _ _ => 1) 23 = .error "target_size_kb must be a positive number" := by
  refine ⟨by norm_num [formParamsOk], ?_, by norm_num [compress_tiff_file]⟩
  intro img sizeKB fuel
  unfold compress_tiff_file
  rw [if_neg (by norm_num)]
  cases compressLoop img (1/20) 50 sizeKB (9/10) fuel with
  | some r => simp
  | none =>
    intro hcon
    exact absurd (Except.error.inj hcon) (by decide)

/-- C4. The code computes the candidate dimensions with no clamp to 1: for
a 1×1 source with the default parameters, the first iteration computes
`new_width = new_height = max(int(1*0.9), int(1*0.3)) = 0` and passes a
0×0 size to `resize`, contradicting the spec's required clamp to ≥ 1. -/
theorem degenerate_dims_zero :
    newDims ⟨1, 1⟩ (9/10) (3/10) = (0, 0) ∧
    compress_tiff_file ⟨1, 1⟩ ⟨50, 3/10, 9/10, 3/2, 3/2, 1/10, 300⟩
        (fun _ _ => 1) 23 = .ok ⟨[(0, 0)], 1, 9/10⟩ := by
  constructor <;> norm_num [compress_tiff_file, compressLoop, newDims, pyInt]

/-- C9. A request whose filename does not end in `.tif`/`.tiff` is rejected
with HTTP 400 before anything is decoded or written: the response is
independent of the compression outcome and no file is created. -/
theorem reject_non_tiff_extension (tempIn tempOut : String)
    (cr : Except String String) (uIn uOut : Bool) :
    compress_tiff "scan.png" tempIn tempOut cr uIn uOut =
      ⟨.httpError 400 "Only TIFF files are supported", []⟩ := by
  have h : hasTiffExt "scan.png" = false := by decide
  simp [compress_tiff, h]

/-- C10, counterexample. On a successful request the artifact written by
`compress_tiff_file` (`compressed_<basename>`) is not deleted by the
handler's `finally` block (which unlinks only the two temporary files), so
a file created during the request outlives it. -/
theorem output_artifact_survives :
    compress_tiff "doc.tiff" "tmp_in.tiff" "tmp_out.tiff"
        (.ok "compressed_tmp_in.tiff") true true =
      ⟨.fileResponse "compressed_tmp_in.tiff", ["compressed_tmp_in.tiff"]⟩ := by
  have h : hasTiffExt "doc.tiff" = true := by decide
  simp [compress_tiff, h, cleanup]

/-- C10, amended. On every exit path the two handler-created temporary
files are removed when deletion succeeds, and a deletion failure never
changes the response; but the encoded artifact written by
`compress_tiff_file` is not removed (see the counterexample). -/
theorem temp_cleanup_best_effort (fn tIn tOut : String)
    (cr : Except String String) (uIn uOut : Bool) :
    (compress_tiff fn tIn tOut cr uIn uOut).result =
      (compress_tiff fn tIn tOut cr true true).result ∧
    tIn ∉ (compress_tiff fn tIn tOut cr true true).remainingFiles ∧
    tOut ∉ (compress_tiff fn tIn tOut cr true true).remainingFiles := by
  unfold compress_tiff
  cases hext : hasTiffExt fn <;> cases cr <;>
    simp [cleanup, List.mem_filter]

end TiffCompressor
